import Mathlib

/-
Verification development for the Eagle Access face-recognition system
(backend/face_recognition.py, backend/embedding_manager.py,
backend/user_manager.py, backend/config.py, api.py).

The Python code is shallowly embedded here: numpy float32 vectors become
`List ℝ`; the JSON files (users.json, embeddings.json, access_log.json)
become association lists in insertion order, mirroring Python dict
semantics; the webcam/DeepFace collaborators are replaced by the data they
feed the core (a list of per-frame extraction outcomes); fallible code
returns `Except`.  Timestamps and the 4-decimal display rounding of scores
are presentation details of the source that no claim depends on and are not
modelled; `confidence`, formatted into a string by the source, is modelled
by its numeric value.
-/

namespace EagleAccess

/-! ## Data model -/

/-- An embedding vector (numpy float32 array in the source). -/
abbrev Vec := List ℝ

/-- embeddings.json: a JSON object mapping a user name to the list of raw
embedding vectors stored for that name, in insertion order. -/
abbrev EmbedStore := List (String × List Vec)

/-- The three similarity scores reported in `decision["scores"]` by
`verify_face_live` (face_recognition.py lines 138-142). -/
structure Scores where
  cosine : ℝ
  euclidean : ℝ
  manhattan : ℝ

/-- The decision dict built by `verify_face_live` (face_recognition.py lines
100-106).  `scores = none` models the initial empty dict `{}`; the
`time` field is not modelled. -/
structure Decision where
  status : String
  name : Option String
  confidence : ℝ
  scores : Option Scores

/-- Registration job states kept in the `registration_status` map of api.py. -/
inductive JobStatus
  | processing
  | completed
  | failed
deriving DecidableEq

/-! ## Python dict operations on string-keyed JSON objects

`dictSet` models `db[k] = v`: an existing key keeps its position, a new key
is appended (CPython dicts preserve insertion order).  `dictGet` models
`db.get(k)` / `k in db`. -/

def dictSet {α : Type} : List (String × α) → String → α → List (String × α)
  | [], k, v => [(k, v)]
  | p :: db, k, v => if p.1 = k then (k, v) :: db else p :: dictSet db k v

def dictGet {α : Type} : List (String × α) → String → Option α
  | [], _ => none
  | p :: db, k => if p.1 = k then some p.2 else dictGet db k

/-- Python `str.lower()` as used for the case-insensitive duplicate check in
user_manager.py line 55 (ASCII names; `String.toLower` of Lean core is
defined by well-founded recursion and does not reduce, so the same map over
the characters is used instead). -/
def strLower (s : String) : String := ⟨s.data.map Char.toLower⟩

/-! ## user_manager.py -/

/-- `add_user_record` (user_manager.py lines 47-68).  The fresh uuid is a
parameter.  On a duplicate name (case-insensitive) it raises `ValueError`
before writing anything; on success it stores `users[user_id] = {"name": name}`.
The dataset-folder side effect is outside the embedded state. -/
def add_user_record (users : List (String × String)) (name freshId : String) :
    Except String (String × List (String × String)) :=
  if users.any (fun p => strLower p.2 == strLower name) then
    Except.error ("User '" ++ name ++ "' already exists.")
  else
    Except.ok (freshId, dictSet users freshId name)

/-- The process state of api.py that the /register route touches: users.json
and the `registration_status` job map. -/
structure ApiState where
  users : List (String × String)
  jobs : List (String × JobStatus)

/-- The synchronous part of `register_user` (api.py lines 52-88): call
`add_user_record`; on `ValueError` reply 400 with the job map untouched and
no background thread started; on success set the job entry to `processing`
(the captured/embedded work happens later in `process_registration`). -/
def register_user (st : ApiState) (name freshId : String) : ApiState × Except String String :=
  match add_user_record st.users name freshId with
  | Except.error e => (st, Except.error e)
  | Except.ok (uid, users') =>
      (⟨users', dictSet st.jobs name JobStatus.processing⟩, Except.ok uid)

end EagleAccess

noncomputable section

namespace EagleAccess

/-! ## Vector arithmetic (numpy / sklearn / scipy operations used by the source) -/

/-- Dot product of two vectors. -/
def dot (u v : Vec) : ℝ := (List.zipWith (fun a b => a * b) u v).sum

/-- Euclidean norm, `np.linalg.norm`. -/
def l2norm (v : Vec) : ℝ := Real.sqrt (dot v v)

/-- `sklearn.preprocessing.Normalizer(norm="l2")` on one row: divide by the
L2 norm; a zero-norm row is left unchanged (sklearn replaces a zero norm
by 1 before dividing). -/
def l2normalize (v : Vec) : Vec :=
  if l2norm v = 0 then v else v.map (fun x => x / l2norm v)

/-- `sklearn.metrics.pairwise.cosine_similarity` of two rows: each row is
L2-normalized, then the dot product is taken. -/
def cosineSim (u v : Vec) : ℝ := dot (l2normalize u) (l2normalize v)

/-- `scipy.spatial.distance.euclidean`. -/
def euclideanDist (u v : Vec) : ℝ :=
  Real.sqrt ((List.zipWith (fun a b => (a - b) ^ 2) u v).sum)

/-- `scipy.spatial.distance.cityblock` (Manhattan distance). -/
def cityblock (u v : Vec) : ℝ := (List.zipWith (fun a b => |a - b|) u v).sum

/-- Sum of a list of `d`-dimensional vectors, componentwise. -/
def vecSum (d : ℕ) (vs : List Vec) : Vec :=
  vs.foldr (fun v acc => List.zipWith (fun a b => a + b) v acc) (List.replicate d 0)

/-- `np.asarray(vecs).mean(axis=0)`: the componentwise sum divided by the
number of vectors (the row dimension is the common length of the rows). -/
def npMean (vs : List Vec) : Vec :=
  (vecSum (vs.headD []).length vs).map (fun x => x / (vs.length : ℝ))

/-- `np.argmax`: index of the first occurrence of the maximum.  `i` is the
index of the next element, `best`/`bv` the index and value of the running
maximum; a later element replaces the running maximum only when strictly
greater. -/
def argmaxAux : List ℝ → ℕ → ℕ → ℝ → ℕ
  | [], _, best, _ => best
  | x :: xs, i, best, bv =>
      if bv < x then argmaxAux xs (i + 1) i x else argmaxAux xs (i + 1) best bv

def npArgmax : List ℝ → ℕ
  | [] => 0
  | x :: xs => argmaxAux xs 1 0 x

/-! ## config.py -/

/-- `SIMILARITY_THRESHOLD` (config.py line 32), default 0.50. -/
def SIMILARITY_THRESHOLD : ℝ := 0.50

/-! ## embedding_manager.py -/

/-- `compute_embeddings_for_folder` (embedding_manager.py lines 36-72): one
`DeepFace.represent` outcome per sample image, in folder order; a sample for
which the model yields no usable vector (`none`) is skipped. -/
def compute_embeddings_for_folder (samples : List (Option Vec)) : List Vec :=
  samples.filterMap id

/-- `average_embeddings` (embedding_manager.py lines 78-90): empty input
gives `[]`; otherwise a single-item list holding the mean vector. -/
def average_embeddings (embeddings : List Vec) : List Vec :=
  if embeddings.isEmpty then [] else [npMean embeddings]

/-- `save_user_embeddings` (embedding_manager.py lines 96-121): with an empty
vector list it returns 0 and touches nothing; otherwise it replaces the
entry for `userName` in embeddings.json and returns how many vectors were
saved. -/
def save_user_embeddings (db : EmbedStore) (userName : String) (embeddings : List Vec) :
    ℕ × EmbedStore :=
  if embeddings.isEmpty then (0, db)
  else (embeddings.length, dictSet db userName embeddings)

/-- `generate_and_save_embeddings_for_user` (embedding_manager.py lines
127-142): compute, average, save.  The returned count of
`save_user_embeddings` only selects a log message and is discarded. -/
def generate_and_save_embeddings_for_user (db : EmbedStore) (userName : String)
    (samples : List (Option Vec)) : EmbedStore :=
  (save_user_embeddings db userName (average_embeddings (compute_embeddings_for_folder samples))).2

/-- The background unit of work `process_registration` (api.py lines 70-87):
zero captured frames sets the job to `failed`; otherwise the embeddings are
generated and saved and the job is set to `completed` unconditionally (the
`except` branch that also sets `failed` fires only when a step raises, which
none of the embedded steps do). -/
def process_registration (jobs : List (String × JobStatus)) (db : EmbedStore) (name : String)
    (captureCount : ℕ) (samples : List (Option Vec)) :
    List (String × JobStatus) × EmbedStore :=
  if captureCount = 0 then (dictSet jobs name JobStatus.failed, db)
  else (dictSet jobs name JobStatus.completed,
        generate_and_save_embeddings_for_user db name samples)

/-! ## face_recognition.py -/

/-- `_load_db` (face_recognition.py lines 29-50): an empty embeddings.json
raises before anything else happens (a missing file likewise raises, and is
folded into the same error case); otherwise the names in insertion order and
the row-wise L2-normalized matrix of per-user mean vectors are returned. -/
def load_db (store : EmbedStore) : Except String (List String × List Vec) :=
  if store.isEmpty then Except.error "embeddings.json is empty. Register users first."
  else Except.ok (store.map Prod.fst, store.map (fun p => l2normalize (npMean p.2)))

/-- What one loop iteration of `verify_face_live` gets out of
`DeepFace.represent` for the captured frame: a usable embedding, a reply
without one (`rep` falsy or malformed, lines 125/144-145), or an exception
(line 164). -/
inductive FrameResult
  | extracted (e : Vec)
  | noEmbedding
  | repRaises

/-- The decision dict as initialized (face_recognition.py lines 100-106). -/
def initialDecision : Decision :=
  { status := "denied", name := none, confidence := 0, scores := none }

/-- The cosine-similarity row `cosine_similarity(emb, db_embeds)[0]`
(face_recognition.py line 128): one score per stored centroid. -/
def simsOf (emb : Vec) (dbEmbeds : List Vec) : List ℝ :=
  dbEmbeds.map (fun c => cosineSim emb c)

/-- One iteration of the `while True` loop of `verify_face_live`
(face_recognition.py lines 108-177), given the extraction outcome for the
frame.  Returns the updated decision, the iteration's `confidence` and its
display `label` (the numeric percentage interpolated into a granted label
cannot contain or complete the substring "Unknown" and is elided).
In the `noEmbedding` case with a negative threshold the granted branch
reads the never-assigned `max_idx` and the `NameError` lands in the
`except` branch, leaving the decision untouched. -/
def processFrame (threshold : ℝ) (names : List String) (dbEmbeds : List Vec)
    (dec : Decision) (fr : FrameResult) : Decision × ℝ × String :=
  match fr with
  | FrameResult.repRaises => (dec, 0, "No Face / Error")
  | FrameResult.noEmbedding =>
      if (0 : ℝ) > threshold then (dec, 0, "No Face / Error")
      else ({ dec with status := "denied", name := some "Unknown", confidence := 0 },
            0, "Access Denied")
  | FrameResult.extracted e =>
      let emb := l2normalize e
      let sims := simsOf emb dbEmbeds
      let maxIdx := npArgmax sims
      let target := dbEmbeds.getD maxIdx []
      let cosScore := sims.getD maxIdx 0
      let euclidScore := 1 / (1 + euclideanDist emb target)
      let manhattanScore := 1 / (1 + cityblock emb target)
      let confidence := cosScore
      let dec1 := { dec with scores := some ⟨cosScore, euclidScore, manhattanScore⟩ }
      if confidence > threshold then
        ({ dec1 with status := "granted", name := some (names.getD maxIdx ""),
                     confidence := confidence },
         confidence, names.getD maxIdx "" ++ " (…%)")
      else
        ({ dec1 with status := "denied", name := some "Unknown", confidence := confidence },
         confidence, "Access Denied")

/-- Whether `pat` is an initial segment of `s` (helper for Python's `in`). -/
def charsBegin : List Char → List Char → Bool
  | [], _ => true
  | _ :: _, [] => false
  | a :: as, b :: bs => a == b && charsBegin as bs

/-- Python's substring test `pat in s` on character lists. -/
def charsContain (pat : List Char) : List Char → Bool
  | [] => charsBegin pat []
  | c :: rest => charsBegin pat (c :: rest) || charsContain pat rest

/-- The `while True` loop of `verify_face_live` over the frames the camera
yields: after each iteration the loop breaks when
`confidence > 0.0 or "Unknown" in label` (face_recognition.py line 175);
when the camera stops yielding frames, `cap.read()` fails and the loop
exits with the decision as last updated. -/
def runLoop (threshold : ℝ) (names : List String) (dbEmbeds : List Vec) :
    Decision → List FrameResult → Decision
  | dec, [] => dec
  | dec, fr :: rest =>
      let r := processFrame threshold names dbEmbeds dec fr
      if r.2.1 > 0 ∨ charsContain "Unknown".data r.2.2.data = true then r.1
      else runLoop threshold names dbEmbeds r.1 rest

/-- `verify_face_live` (face_recognition.py lines 84-205): load the database
(raising on an empty registry before the camera is even opened, so nothing
is logged), run the capture loop, then append the decision to
access_log.json and return it. -/
def verify_face_live (threshold : ℝ) (store : EmbedStore) (frames : List FrameResult)
    (accessLog : List Decision) : Except String (Decision × List Decision) :=
  match load_db store with
  | Except.error e => Except.error e
  | Except.ok (names, dbEmbeds) =>
      let dec := runLoop threshold names dbEmbeds initialDecision frames
      Except.ok (dec, accessLog ++ [dec])

/-! ## Whole-process state for frame conditions -/

/-- The three persisted stores (users.json, embeddings.json,
access_log.json). -/
structure SysState where
  users : List (String × String)
  embedStore : EmbedStore
  accessLog : List Decision

/-- `save_user_embeddings` viewed at the file level: it opens and rewrites
only embeddings.json (embedding_manager.py lines 96-121); users.json and
access_log.json are not touched by the function. -/
def save_user_embeddings_sys (st : SysState) (userName : String) (embeddings : List Vec) :
    ℕ × SysState :=
  let r := save_user_embeddings st.embedStore userName embeddings
  (r.1, { st with embedStore := r.2 })

/-! ## Claim statements -/

/-- The threshold decision rule of `verify_face_live` for a run whose single
captured frame yields a probe embedding `e`: the decision is logged, the
best candidate's cosine score is the maximum over all enrolled centroids,
the reported confidence equals it, access is granted with that candidate's
name exactly when it strictly exceeds the threshold, and otherwise — in
particular at exact equality — the run is denied with the "Unknown"
sentinel. -/
def grantRule (threshold : ℝ) (store : EmbedStore) (e : Vec) (accessLog : List Decision) : Prop :=
  ∃ dec : Decision,
    verify_face_live threshold store [FrameResult.extracted e] accessLog =
      Except.ok (dec, accessLog ++ [dec]) ∧
    (∀ j, j < (simsOf (l2normalize e) (store.map (fun p => l2normalize (npMean p.2)))).length →
      (simsOf (l2normalize e) (store.map (fun p => l2normalize (npMean p.2)))).getD j 0 ≤
      (simsOf (l2normalize e) (store.map (fun p => l2normalize (npMean p.2)))).getD
        (npArgmax (simsOf (l2normalize e) (store.map (fun p => l2normalize (npMean p.2))))) 0) ∧
    dec.confidence =
      (simsOf (l2normalize e) (store.map (fun p => l2normalize (npMean p.2)))).getD
        (npArgmax (simsOf (l2normalize e) (store.map (fun p => l2normalize (npMean p.2))))) 0 ∧
    (dec.confidence > threshold →
      dec.status = "granted" ∧
      dec.name = some ((store.map Prod.fst).getD
        (npArgmax (simsOf (l2normalize e) (store.map (fun p => l2normalize (npMean p.2))))) "")) ∧
    (¬ dec.confidence > threshold →
      dec.status = "denied" ∧ dec.name = some "Unknown") ∧
    (dec.status = "granted" ↔ dec.confidence > threshold) ∧
    (dec.confidence = threshold → dec.status = "denied")

/-- What the Matcher actually computes per run (amended C5): the cosine
similarity is computed for every enrolled centroid, the Euclidean- and
Manhattan-derived scores are reported only for the argmax-cosine centroid,
and the access decision is a function of the cosine score alone. -/
def cosineOnlyRule (threshold : ℝ) (store : EmbedStore) (e : Vec) (accessLog : List Decision) :
    Prop :=
  ∃ dec : Decision,
    verify_face_live threshold store [FrameResult.extracted e] accessLog =
      Except.ok (dec, accessLog ++ [dec]) ∧
    (simsOf (l2normalize e) (store.map (fun p => l2normalize (npMean p.2)))).length =
      store.length ∧
    (∀ j, j < store.length →
      (simsOf (l2normalize e) (store.map (fun p => l2normalize (npMean p.2)))).getD j 0 =
        cosineSim (l2normalize e)
          ((store.map (fun p => l2normalize (npMean p.2))).getD j [])) ∧
    dec.scores = some
      ⟨(simsOf (l2normalize e) (store.map (fun p => l2normalize (npMean p.2)))).getD
         (npArgmax (simsOf (l2normalize e) (store.map (fun p => l2normalize (npMean p.2))))) 0,
       1 / (1 + euclideanDist (l2normalize e)
         ((store.map (fun p => l2normalize (npMean p.2))).getD
           (npArgmax (simsOf (l2normalize e) (store.map (fun p => l2normalize (npMean p.2))))) [])),
       1 / (1 + cityblock (l2normalize e)
         ((store.map (fun p => l2normalize (npMean p.2))).getD
           (npArgmax (simsOf (l2normalize e) (store.map (fun p => l2normalize (npMean p.2))))) []))⟩ ∧
    (dec.status = "granted" ↔
      (simsOf (l2normalize e) (store.map (fun p => l2normalize (npMean p.2)))).getD
        (npArgmax (simsOf (l2normalize e) (store.map (fun p => l2normalize (npMean p.2))))) 0 >
        threshold)

/-- Amended C3: a verification run whose frame yields no usable probe
embedding ends denied with confidence 0 and is appended to the access log
like any other decision; the record carries no explicit error marker — the
malformed-reply path leaves the "Unknown" sentinel and an empty scores map,
the raising path leaves the decision dict untouched. -/
def probeFailureLogged (threshold : ℝ) (store : EmbedStore) (accessLog : List Decision) : Prop :=
  (∃ dec : Decision,
    verify_face_live threshold store [FrameResult.noEmbedding] accessLog =
      Except.ok (dec, accessLog ++ [dec]) ∧
    dec.status = "denied" ∧ dec.name = some "Unknown" ∧ dec.confidence = 0 ∧
    dec.scores = none) ∧
  (∃ dec : Decision,
    verify_face_live threshold store [FrameResult.repRaises] accessLog =
      Except.ok (dec, accessLog ++ [dec]) ∧
    dec.status = "denied" ∧ dec.name = none ∧ dec.confidence = 0 ∧
    dec.scores = none)

/-- C4: for the `i`-th enrolled entry, the centroid the Matcher compares
against is the L2-normalization of the componentwise arithmetic mean of
that entry's stored vectors; the mean is insensitive to the insertion order
of the vectors; and the probe is put through the same L2 normalization
before the cosine scoring against the normalized centroids. -/
def centroidRule (store : EmbedStore) (i d : ℕ) (vs' : List Vec) (e : Vec) : Prop :=
  (∃ names dbE, load_db store = Except.ok (names, dbE) ∧
    dbE.getD i [] = l2normalize (npMean (store.getD i ("", [])).2)) ∧
  (∀ j, j < d → (npMean (store.getD i ("", [])).2).getD j 0 =
    ((store.getD i ("", [])).2.map (fun v => v.getD j 0)).sum /
      ((store.getD i ("", [])).2.length : ℝ)) ∧
  npMean vs' = npMean (store.getD i ("", [])).2 ∧
  simsOf (l2normalize e) (store.map (fun p => l2normalize (npMean p.2))) =
    store.map (fun p => cosineSim (l2normalize e) (l2normalize (npMean p.2)))

end EagleAccess

end

namespace EagleAccess

/-! ## Lemmas about the embedded dict operations -/

theorem dictGet_dictSet_self {α : Type} : ∀ (db : List (String × α)) (k : String) (v : α),
    dictGet (dictSet db k v) k = some v
  | [], k, v => by simp [dictSet, dictGet]
  | p :: db, k, v => by
      by_cases h : p.1 = k
      · simp [dictSet, dictGet, h]
      · simp [dictSet, dictGet, h, dictGet_dictSet_self db k v]

theorem dictGet_dictSet_other {α : Type} : ∀ (db : List (String × α)) (k k' : String) (v : α),
    k' ≠ k → dictGet (dictSet db k v) k' = dictGet db k'
  | [], k, k', v, h => by simp [dictSet, dictGet, Ne.symm h]
  | p :: db, k, k', v, h => by
      by_cases hp : p.1 = k
      · simp [dictSet, dictGet, hp, Ne.symm h]
      · simp [dictSet, dictGet, hp, dictGet_dictSet_other db k k' v h]

/-! ## Lemmas about vector sums and the numpy mean -/

theorem zipWith_add_left_comm (a b c : List ℝ) :
    List.zipWith (fun x y => x + y) a (List.zipWith (fun x y => x + y) b c) =
    List.zipWith (fun x y => x + y) b (List.zipWith (fun x y => x + y) a c) := by
  induction a generalizing b c with
  | nil => cases b <;> cases c <;> simp
  | cons x xs ih =>
      cases b with
      | nil => simp
      | cons y ys =>
          cases c with
          | nil => simp
          | cons z zs =>
              simp only [List.zipWith_cons_cons, List.cons.injEq]
              exact ⟨by ring, ih ys zs⟩

theorem vecSum_perm (d : ℕ) {vs vs' : List Vec} (p : vs.Perm vs') :
    vecSum d vs = vecSum d vs' := by
  induction p with
  | nil => rfl
  | cons x _ ih =>
      show List.zipWith _ x (vecSum d _) = List.zipWith _ x (vecSum d _)
      rw [ih]
  | swap x y l => exact zipWith_add_left_comm y x (vecSum d l)
  | trans _ _ ih1 ih2 => rw [ih1, ih2]

theorem vecSum_length (d : ℕ) : ∀ (vs : List Vec), (∀ v ∈ vs, v.length = d) →
    (vecSum d vs).length = d
  | [], _ => by simp [vecSum]
  | v :: vs, h => by
      have hv : v.length = d := h v (by simp)
      have ih := vecSum_length d vs (fun u hu => h u (by simp [hu]))
      show (List.zipWith _ v (vecSum d vs)).length = d
      rw [List.length_zipWith, hv, ih, min_self]

theorem getD_zipWith_add : ∀ (u w : List ℝ) (j : ℕ), j < u.length → j < w.length →
    (List.zipWith (fun a b => a + b) u w).getD j 0 = u.getD j 0 + w.getD j 0
  | [], _, _, hu, _ => absurd hu (by simp)
  | _ :: _, [], _, _, hw => absurd hw (by simp)
  | a :: u, b :: w, 0, _, _ => by simp
  | a :: u, b :: w, j + 1, hu, hw => by
      simp only [List.zipWith_cons_cons, List.getD_cons_succ]
      exact getD_zipWith_add u w j (by simpa using hu) (by simpa using hw)

theorem vecSum_getD (d : ℕ) : ∀ (vs : List Vec), (∀ v ∈ vs, v.length = d) →
    ∀ j, j < d → (vecSum d vs).getD j 0 = (vs.map (fun v => v.getD j 0)).sum
  | [], _, j, hj => by
      show (List.replicate d (0 : ℝ)).getD j 0 = _
      rw [List.getD_eq_getElem?_getD, List.getElem?_replicate_of_lt hj]
      simp
  | v :: vs, h, j, hj => by
      have hv : v.length = d := h v (by simp)
      have hl : (vecSum d vs).length = d := vecSum_length d vs (fun u hu => h u (by simp [hu]))
      show (List.zipWith _ v (vecSum d vs)).getD j 0 = _
      rw [getD_zipWith_add v (vecSum d vs) j (by rw [hv]; exact hj) (by rw [hl]; exact hj)]
      rw [vecSum_getD d vs (fun u hu => h u (by simp [hu])) j hj]
      simp

theorem npMean_getD (vs : List Vec) (d : ℕ) (h : ∀ v ∈ vs, v.length = d) (hne : vs ≠ [])
    (j : ℕ) (hj : j < d) :
    (npMean vs).getD j 0 = (vs.map (fun v => v.getD j 0)).sum / (vs.length : ℝ) := by
  have hhead : (vs.headD []).length = d := by
    cases vs with
    | nil => exact absurd rfl hne
    | cons v vs => exact h v (by simp)
  have hlen : (vecSum d vs).length = d := vecSum_length d vs h
  unfold npMean
  rw [hhead]
  have hj' : j < (vecSum d vs).length := by rw [hlen]; exact hj
  rw [List.getD_eq_getElem?_getD, List.getElem?_map, List.getElem?_eq_getElem hj']
  simp only [Option.map_some', Option.getD_some]
  rw [← List.getD_eq_getElem (vecSum d vs) 0 hj', vecSum_getD d vs h j hj]

theorem npMean_perm {vs vs' : List Vec} (d : ℕ) (h : ∀ v ∈ vs, v.length = d)
    (p : vs.Perm vs') : npMean vs' = npMean vs := by
  cases vs with
  | nil =>
      have h0 : vs' = [] := p.symm.eq_nil
      rw [h0]
  | cons v vs0 =>
      have hne' : vs' ≠ [] := by
        intro h0
        rw [h0] at p
        exact absurd p.eq_nil (by simp)
      have hhead : ((v :: vs0).headD []).length = d := h v (by simp)
      have hhead' : (vs'.headD []).length = d := by
        cases vs' with
        | nil => exact absurd rfl hne'
        | cons w ws => exact h w (p.mem_iff.mpr (by simp))
      unfold npMean
      rw [hhead, hhead', ← vecSum_perm d p, ← p.length_eq]

/-! ## Lemmas about np.argmax -/

theorem argmaxAux_spec : ∀ (xs front : List ℝ) (best : ℕ) (bv : ℝ),
    best < front.length →
    (front ++ xs).getD best 0 = bv →
    (∀ j, j < front.length → (front ++ xs).getD j 0 ≤ bv) →
    argmaxAux xs front.length best bv < (front ++ xs).length ∧
    ∀ j, j < (front ++ xs).length →
      (front ++ xs).getD j 0 ≤ (front ++ xs).getD (argmaxAux xs front.length best bv) 0
  | [], front, best, bv, hb, hbv, hmax => by
      rw [List.append_nil] at hbv hmax ⊢
      show best < front.length ∧ _
      refine ⟨hb, ?_⟩
      intro j hj
      rw [show argmaxAux [] front.length best bv = best from rfl, hbv]
      exact hmax j hj
  | x :: xs, front, best, bv, hb, hbv, hmax => by
      have key : front ++ x :: xs = (front ++ [x]) ++ xs := by simp
      have hlen1 : (front ++ [x]).length = front.length + 1 := by simp
      have hgx : ((front ++ [x]) ++ xs).getD front.length 0 = x := by
        rw [List.getD_append _ _ _ _ (by simp : front.length < (front ++ [x]).length)]
        rw [List.getD_append_right _ _ _ _ (le_refl front.length)]
        simp
      by_cases hx : bv < x
      · have ih := argmaxAux_spec xs (front ++ [x]) front.length x
          (by simp) hgx ?_
        · rw [show argmaxAux (x :: xs) front.length best bv =
              argmaxAux xs (front.length + 1) front.length x from if_pos hx, key]
          rw [hlen1] at ih
          exact ih
        · intro j hj
          rw [hlen1] at hj
          rcases Nat.lt_succ_iff_lt_or_eq.mp hj with hj' | hj'
          · rw [← key]
            exact le_trans (hmax j hj') (le_of_lt hx)
          · rw [hj', hgx]
      · have ih := argmaxAux_spec xs (front ++ [x]) best bv
          (by rw [hlen1]; exact Nat.lt_succ_of_lt hb)
          (by rw [← key]; exact hbv) ?_
        · rw [show argmaxAux (x :: xs) front.length best bv =
              argmaxAux xs (front.length + 1) best bv from if_neg hx, key]
          rw [hlen1] at ih
          exact ih
        · intro j hj
          rw [hlen1] at hj
          rcases Nat.lt_succ_iff_lt_or_eq.mp hj with hj' | hj'
          · rw [← key]
            exact hmax j hj'
          · rw [hj', hgx]
            exact le_of_not_lt hx

theorem npArgmax_spec : ∀ (l : List ℝ), l ≠ [] →
    npArgmax l < l.length ∧
    ∀ j, j < l.length → l.getD j 0 ≤ l.getD (npArgmax l) 0
  | [], h => absurd rfl h
  | x :: xs, _ => by
      have h := argmaxAux_spec xs [x] 0 x (by simp) (by simp) ?_
      · exact h
      · intro j hj
        simp only [List.length_cons, List.length_nil] at hj
        have hj0 : j = 0 := by omega
        rw [hj0]
        simp

/-! ## C4 -/

/-- C4: the centroid the Matcher compares against for the `i`-th enrolled
entry is the L2-normalization of the componentwise arithmetic mean of that
entry's stored vectors; the mean is independent of the vectors' insertion
order; and the probe is L2-normalized by the same `Normalizer` before the
cosine scoring against the normalized centroids. -/
theorem claim4_centroid_normalized_mean (store : EmbedStore) (i d : ℕ) (vs' : List Vec)
    (e : Vec) (hi : i < store.length) (hne : store ≠ [])
    (hd : ∀ v ∈ (store.getD i ("", [])).2, v.length = d)
    (hvs : (store.getD i ("", [])).2 ≠ [])
    (hperm : (store.getD i ("", [])).2.Perm vs') :
    centroidRule store i d vs' e := by
  refine ⟨⟨store.map Prod.fst, store.map (fun p => l2normalize (npMean p.2)), ?_, ?_⟩,
          ?_, ?_, ?_⟩
  · unfold load_db
    rw [if_neg (by simp [List.isEmpty_iff, hne])]
  · rw [List.getD_eq_getElem?_getD, List.getElem?_map, List.getElem?_eq_getElem hi]
    simp only [Option.map_some', Option.getD_some]
    rw [List.getD_eq_getElem store ("", []) hi]
  · intro j hj
    exact npMean_getD _ d hd hvs j hj
  · exact npMean_perm d hd hperm
  · simp [simsOf, List.map_map, Function.comp]

/-- Witness for C4 at the entry ("a", [[1], [3]]) with the reversed vector
order as the permutation and probe [1]. -/
theorem claim4_centroid_normalized_mean_witness :
    (0 < ([("a", [[(1 : ℝ)], [3]])] : EmbedStore).length) ∧
    (([("a", [[(1 : ℝ)], [3]])] : EmbedStore) ≠ []) ∧
    (∀ v ∈ (([("a", [[(1 : ℝ)], [3]])] : EmbedStore).getD 0 ("", [])).2, v.length = 1) ∧
    ((([("a", [[(1 : ℝ)], [3]])] : EmbedStore).getD 0 ("", [])).2 ≠ []) ∧
    ((([("a", [[(1 : ℝ)], [3]])] : EmbedStore).getD 0 ("", [])).2.Perm [[(3 : ℝ)], [1]]) ∧
    centroidRule [("a", [[(1 : ℝ)], [3]])] 0 1 [[(3 : ℝ)], [1]] [(1 : ℝ)] :=
  ⟨by simp, by simp,
   by intro v hv; fin_cases hv <;> rfl,
   by simp, List.Perm.swap [(3 : ℝ)] [(1 : ℝ)] [],
   claim4_centroid_normalized_mean [("a", [[(1 : ℝ)], [3]])] 0 1 [[(3 : ℝ)], [1]] [(1 : ℝ)]
     (by simp) (by simp)
     (by intro v hv; fin_cases hv <;> rfl)
     (by simp) (List.Perm.swap [(3 : ℝ)] [(1 : ℝ)] [])⟩

/-! ## C8 -/

/-- C8 is false on the code: a registration that captures 2 samples, both
yielding usable embeddings [0] and [2], stores a single averaged vector
[1] for the name — not an ordered sequence of 2 raw vectors, one per
captured sample (`average_embeddings` collapses the samples before
`save_user_embeddings` runs). -/
theorem claim8_single_mean_counterexample :
    process_registration [] [] "ada" 2 [some [(0 : ℝ)], some [(2 : ℝ)]] =
      ([("ada", JobStatus.completed)], [("ada", [[(1 : ℝ)]])]) ∧
    (dictGet ([("ada", [[(1 : ℝ)]])] : EmbedStore) "ada").map List.length = some 1 ∧
    (1 : ℕ) ≠ 2 := by
  have hmean : npMean [[(0 : ℝ)], [(2 : ℝ)]] = [1] := by
    unfold npMean vecSum
    norm_num [List.replicate]
  refine ⟨?_, by simp [dictGet], by decide⟩
  simp [process_registration, generate_and_save_embeddings_for_user,
        compute_embeddings_for_folder, average_embeddings, save_user_embeddings,
        dictSet, hmean]

/-- C8 amended: after a registration whose `captureCount ≥ 1` samples yield
at least one usable embedding, the Embedding Store entry for the name holds
exactly one vector — the componentwise mean of the usable sample
embeddings — rather than one raw vector per captured sample. -/
theorem claim8_store_holds_single_mean (jobs : List (String × JobStatus)) (db : EmbedStore)
    (name : String) (captureCount : ℕ) (samples : List (Option Vec))
    (hc : ¬ captureCount = 0) (hne : samples.filterMap id ≠ []) :
    dictGet (process_registration jobs db name captureCount samples).2 name =
      some [npMean (samples.filterMap id)] := by
  have h1 : ¬ (samples.filterMap id).isEmpty = true := by simp [List.isEmpty_iff, hne]
  unfold process_registration generate_and_save_embeddings_for_user average_embeddings
    save_user_embeddings compute_embeddings_for_folder
  rw [if_neg hc, if_neg h1]
  rw [if_neg (by simp : ¬ ([npMean (samples.filterMap id)].isEmpty = true))]
  exact dictGet_dictSet_self db name _

/-- Witness for C8's amended statement with two usable samples [0], [2]. -/
theorem claim8_store_holds_single_mean_witness :
    (¬ (2 : ℕ) = 0) ∧
    (([some [(0 : ℝ)], some [(2 : ℝ)]].filterMap id ≠ [])) ∧
    dictGet (process_registration [] [] "ada" 2 [some [(0 : ℝ)], some [(2 : ℝ)]]).2 "ada" =
      some [npMean ([some [(0 : ℝ)], some [(2 : ℝ)]].filterMap id)] :=
  ⟨by decide, by simp,
   claim8_store_holds_single_mean [] [] "ada" 2 [some [(0 : ℝ)], some [(2 : ℝ)]]
     (by decide) (by simp)⟩

/-! ## C7 -/

/-- C7: `save_user_embeddings` with an empty vector list is a no-op: it
signals zero vectors saved and returns the store unchanged, so a
pre-existing entry for the name is neither deleted nor altered. -/
theorem claim7_save_empty_noop (db : EmbedStore) (userName : String) :
    save_user_embeddings db userName [] = (0, db) := rfl

/-! ## C2 -/

/-- C2 (code divergence): a registration that captures one frame whose only
sample yields no usable embedding runs `generate_and_save_embeddings_for_user`
with zero vectors — `save` is a no-op — yet the job is set to `completed`,
with no entry for the name in the Embedding Store.  The claim (and spec
§4.4/§7/§8) requires `failed` here and `completed` only when a non-empty
entry exists. -/
theorem claim2_completed_without_entry :
    process_registration [("ada", JobStatus.processing)] [] "ada" 1 [none] =
      ([("ada", JobStatus.completed)], []) ∧
    dictGet ([] : EmbedStore) "ada" = none :=
  ⟨rfl, rfl⟩

/-! ## C9 -/

/-- C9: verification against an empty registry raises the empty-registry
error before the camera is opened; nothing is appended to the Access Log,
so in particular no decision with status granted or a matched name is
logged by the attempt. -/
theorem claim9_empty_registry_error (threshold : ℝ) (frames : List FrameResult)
    (accessLog : List Decision) :
    verify_face_live threshold ([] : EmbedStore) frames accessLog =
      Except.error "embeddings.json is empty. Register users first." ∧
    ∀ (dec : Decision) (log' : List Decision),
      verify_face_live threshold ([] : EmbedStore) frames accessLog ≠
        Except.ok (dec, log') :=
  ⟨rfl, fun _ _ => by simp [verify_face_live, load_db]⟩

/-! ## C6 -/

/-- C6: a registration request whose name matches an existing record
case-insensitively fails synchronously with the duplicate-name error: the
whole ApiState — in particular the job-status map — is returned unchanged,
and no background work is started for the request. -/
theorem claim6_duplicate_rejected (st : ApiState) (name freshId : String)
    (h : st.users.any (fun p => strLower p.2 == strLower name) = true) :
    register_user st name freshId =
      (st, Except.error ("User '" ++ name ++ "' already exists.")) := by
  unfold register_user add_user_record
  simp [h]

/-- Witness for C6: registering "ada" while "Ada" exists is rejected with
the job map untouched. -/
theorem claim6_duplicate_rejected_witness :
    ((ApiState.mk [("u1", "Ada")] []).users.any
        (fun p => strLower p.2 == strLower "ada") = true) ∧
    register_user (ApiState.mk [("u1", "Ada")] []) "ada" "u2" =
      (ApiState.mk [("u1", "Ada")] [],
       Except.error ("User '" ++ "ada" ++ "' already exists.")) :=
  ⟨by decide, claim6_duplicate_rejected _ _ _ (by decide)⟩

/-! ## C10 -/

/-- C10: saving a non-empty vector list for a name rewrites only that name's
entry of the Embedding Store: any other name reads back unchanged, and
users.json and the access log are not modified. -/
theorem claim10_save_frame_effect (st : SysState) (userName : String) (vs : List Vec)
    (h : vs ≠ []) (other : String) (hother : other ≠ userName) :
    dictGet (save_user_embeddings_sys st userName vs).2.embedStore other =
      dictGet st.embedStore other ∧
    dictGet (save_user_embeddings_sys st userName vs).2.embedStore userName = some vs ∧
    (save_user_embeddings_sys st userName vs).2.users = st.users ∧
    (save_user_embeddings_sys st userName vs).2.accessLog = st.accessLog := by
  have hvs : ¬ vs.isEmpty = true := by simp [List.isEmpty_iff, h]
  unfold save_user_embeddings_sys save_user_embeddings
  rw [if_neg hvs]
  exact ⟨dictGet_dictSet_other st.embedStore userName other vs hother,
         dictGet_dictSet_self st.embedStore userName vs, rfl, rfl⟩

/-- Witness for C10: saving `[[1]]` for "ada" leaves "bob"'s vectors, the
user registry and the access log unchanged. -/
theorem claim10_save_frame_effect_witness :
    (([[(1 : ℝ)]] : List Vec) ≠ []) ∧ ("bob" ≠ "ada") ∧
    (dictGet (save_user_embeddings_sys (SysState.mk [] [("bob", [[2]])] []) "ada"
        [[(1 : ℝ)]]).2.embedStore "bob" =
      dictGet (SysState.mk [] [("bob", [[2]])] []).embedStore "bob" ∧
    dictGet (save_user_embeddings_sys (SysState.mk [] [("bob", [[2]])] []) "ada"
        [[(1 : ℝ)]]).2.embedStore "ada" = some [[(1 : ℝ)]] ∧
    (save_user_embeddings_sys (SysState.mk [] [("bob", [[2]])] []) "ada"
        [[(1 : ℝ)]]).2.users = (SysState.mk [] [("bob", [[2]])] []).users ∧
    (save_user_embeddings_sys (SysState.mk [] [("bob", [[2]])] []) "ada"
        [[(1 : ℝ)]]).2.accessLog = (SysState.mk [] [("bob", [[2]])] []).accessLog) :=
  ⟨by simp, by decide,
   claim10_save_frame_effect (SysState.mk [] [("bob", [[2]])] []) "ada" [[(1 : ℝ)]]
     (by simp) "bob" (by decide)⟩

/-! ## Lemmas about one-frame verification runs -/

theorem runLoop_single (thr : ℝ) (names : List String) (dbE : List Vec) (dec : Decision)
    (fr : FrameResult) :
    runLoop thr names dbE dec [fr] = (processFrame thr names dbE dec fr).1 := by
  simp only [runLoop]
  exact ite_self _

theorem verify_single (thr : ℝ) (store : EmbedStore) (hne : store ≠ [])
    (fr : FrameResult) (log : List Decision) :
    verify_face_live thr store [fr] log =
      Except.ok ((processFrame thr (store.map Prod.fst)
          (store.map (fun p => l2normalize (npMean p.2))) initialDecision fr).1,
        log ++ [(processFrame thr (store.map Prod.fst)
          (store.map (fun p => l2normalize (npMean p.2))) initialDecision fr).1]) := by
  unfold verify_face_live load_db
  rw [if_neg (by simp [List.isEmpty_iff, hne])]
  simp only [runLoop_single]

theorem processFrame_extracted_granted (thr : ℝ) (names : List String) (dbE : List Vec)
    (dec : Decision) (e : Vec)
    (h : (simsOf (l2normalize e) dbE).getD (npArgmax (simsOf (l2normalize e) dbE)) 0 > thr) :
    (processFrame thr names dbE dec (FrameResult.extracted e)).1 =
      { status := "granted",
        name := some (names.getD (npArgmax (simsOf (l2normalize e) dbE)) ""),
        confidence := (simsOf (l2normalize e) dbE).getD (npArgmax (simsOf (l2normalize e) dbE)) 0,
        scores := some
          ⟨(simsOf (l2normalize e) dbE).getD (npArgmax (simsOf (l2normalize e) dbE)) 0,
           1 / (1 + euclideanDist (l2normalize e)
                 (dbE.getD (npArgmax (simsOf (l2normalize e) dbE)) [])),
           1 / (1 + cityblock (l2normalize e)
                 (dbE.getD (npArgmax (simsOf (l2normalize e) dbE)) []))⟩ } := by
  simp only [processFrame]
  rw [if_pos h]

theorem processFrame_extracted_denied (thr : ℝ) (names : List String) (dbE : List Vec)
    (dec : Decision) (e : Vec)
    (h : ¬ (simsOf (l2normalize e) dbE).getD (npArgmax (simsOf (l2normalize e) dbE)) 0 > thr) :
    (processFrame thr names dbE dec (FrameResult.extracted e)).1 =
      { status := "denied",
        name := some "Unknown",
        confidence := (simsOf (l2normalize e) dbE).getD (npArgmax (simsOf (l2normalize e) dbE)) 0,
        scores := some
          ⟨(simsOf (l2normalize e) dbE).getD (npArgmax (simsOf (l2normalize e) dbE)) 0,
           1 / (1 + euclideanDist (l2normalize e)
                 (dbE.getD (npArgmax (simsOf (l2normalize e) dbE)) [])),
           1 / (1 + cityblock (l2normalize e)
                 (dbE.getD (npArgmax (simsOf (l2normalize e) dbE)) []))⟩ } := by
  simp only [processFrame]
  rw [if_neg h]

theorem processFrame_noEmbedding (thr : ℝ) (names : List String) (dbE : List Vec)
    (dec : Decision) (h : ¬ (0 : ℝ) > thr) :
    (processFrame thr names dbE dec FrameResult.noEmbedding).1 =
      { dec with status := "denied", name := some "Unknown", confidence := 0 } := by
  simp only [processFrame]
  rw [if_neg h]

theorem processFrame_repRaises (thr : ℝ) (names : List String) (dbE : List Vec)
    (dec : Decision) :
    (processFrame thr names dbE dec FrameResult.repRaises).1 = dec := rfl

/-! ## C1 -/

/-- C1: in a verification run that extracts a probe embedding against a
non-empty registry, the best candidate's cosine similarity is the maximum
over all enrolled centroids, the reported confidence equals it in both
outcomes, the decision is granted with the best candidate's name exactly
when that score strictly exceeds the threshold, and otherwise — including
at exact equality with the threshold — denied with the "Unknown"
sentinel. -/
theorem claim1_threshold_decision (thr : ℝ) (store : EmbedStore) (e : Vec)
    (log : List Decision) (hne : store ≠ []) : grantRule thr store e log := by
  have hsne : simsOf (l2normalize e) (store.map (fun p => l2normalize (npMean p.2))) ≠ [] := by
    intro h0
    exact hne (by simpa [simsOf, List.map_eq_nil_iff] using h0)
  have hspec := npArgmax_spec _ hsne
  unfold grantRule
  by_cases hgt : (simsOf (l2normalize e) (store.map (fun p => l2normalize (npMean p.2)))).getD
      (npArgmax (simsOf (l2normalize e) (store.map (fun p => l2normalize (npMean p.2))))) 0 > thr
  · have hdec := processFrame_extracted_granted thr (store.map Prod.fst) _
      initialDecision e hgt
    refine ⟨_, verify_single thr store hne (FrameResult.extracted e) log,
            hspec.2, ?_, ?_, ?_, ?_, ?_⟩
    · rw [hdec]
    · intro _
      rw [hdec]
      exact ⟨rfl, rfl⟩
    · intro hc
      rw [hdec] at hc
      exact absurd hgt hc
    · rw [hdec]
      exact ⟨fun _ => hgt, fun _ => rfl⟩
    · intro hc
      rw [hdec] at hc
      exact absurd (hc ▸ hgt) (lt_irrefl thr)
  · have hdec := processFrame_extracted_denied thr (store.map Prod.fst) _
      initialDecision e hgt
    have hds : ¬ ("denied" : String) = "granted" := by decide
    refine ⟨_, verify_single thr store hne (FrameResult.extracted e) log,
            hspec.2, ?_, ?_, ?_, ?_, ?_⟩
    · rw [hdec]
    · intro hc
      rw [hdec] at hc
      exact absurd hc hgt
    · intro _
      rw [hdec]
      exact ⟨rfl, rfl⟩
    · rw [hdec]
      exact ⟨fun hg => absurd hg hds, fun hg => absurd hg hgt⟩
    · intro _
      rw [hdec]

/-- Witness for C1 at the default threshold `SIMILARITY_THRESHOLD = 0.50`,
registry [("a", [[1]])], probe [1]. -/
theorem claim1_threshold_decision_witness :
    (([("a", [[(1 : ℝ)]])] : EmbedStore) ≠ []) ∧
    grantRule SIMILARITY_THRESHOLD [("a", [[(1 : ℝ)]])] [(1 : ℝ)] [] :=
  ⟨by simp,
   claim1_threshold_decision SIMILARITY_THRESHOLD [("a", [[(1 : ℝ)]])] [(1 : ℝ)] [] (by simp)⟩

/-! ## Evaluation lemmas for concrete runs -/

theorem map_div_one (v : Vec) : v.map (fun x => x / (1 : ℝ)) = v := by
  induction v with
  | nil => rfl
  | cons a t ih => simp [ih]

theorem zipWith_add_replicate (v : Vec) :
    List.zipWith (fun a b => a + b) v (List.replicate v.length 0) = v := by
  induction v with
  | nil => rfl
  | cons a t ih => simp [List.replicate_succ, ih]

theorem npMean_single (v : Vec) : npMean [v] = v := by
  show (List.zipWith _ v (List.replicate v.length 0)).map
    (fun x => x / ((1 : ℕ) : ℝ)) = v
  rw [zipWith_add_replicate]
  rw [Nat.cast_one]
  exact map_div_one v

theorem l2normalize_of_norm_one (v : Vec) (h : dot v v = 1) : l2normalize v = v := by
  unfold l2normalize l2norm
  rw [h, Real.sqrt_one]
  rw [if_neg one_ne_zero]
  exact map_div_one v

theorem npArgmax_single (x : ℝ) : npArgmax [x] = 0 := rfl

theorem npArgmax_pair_of_not_lt (x y : ℝ) (h : ¬ x < y) : npArgmax [x, y] = 0 := by
  show (if x < y then argmaxAux [] 2 1 y else argmaxAux [] 2 0 x) = 0
  rw [if_neg h]
  rfl

/-! ## C3 -/

/-- Amended C3: a run whose frame yields no usable probe embedding (with a
non-negative threshold) is denied with confidence 0, carries no scores, and
is appended to the Access Log like any other decision; the malformed-reply
path reports the "Unknown" sentinel, the raising path leaves the initial
decision (no name) — neither carries an explicit error marker. -/
theorem claim3_probe_failure_logged (thr : ℝ) (store : EmbedStore) (log : List Decision)
    (hne : store ≠ []) (hth : 0 ≤ thr) : probeFailureLogged thr store log := by
  have hnn : ¬ (0 : ℝ) > thr := not_lt.mpr hth
  constructor
  · refine ⟨_, verify_single thr store hne FrameResult.noEmbedding log, ?_, ?_, ?_, ?_⟩ <;>
      (rw [processFrame_noEmbedding _ _ _ _ hnn] <;> rfl)
  · exact ⟨_, verify_single thr store hne FrameResult.repRaises log, rfl, rfl, rfl, rfl⟩

/-- Witness for the amended C3 at threshold 1/2, registry [("a", [[1]])]. -/
theorem claim3_probe_failure_logged_witness :
    (([("a", [[(1 : ℝ)]])] : EmbedStore) ≠ []) ∧ ((0 : ℝ) ≤ 1 / 2) ∧
    probeFailureLogged (1 / 2) [("a", [[(1 : ℝ)]])] [] :=
  ⟨by simp, by norm_num,
   claim3_probe_failure_logged (1 / 2) [("a", [[(1 : ℝ)]])] [] (by simp) (by norm_num)⟩

/-! ## C5 -/

/-- Amended C5: the cosine similarity is computed for every enrolled
centroid; the Euclidean- and Manhattan-derived scores are reported only for
the best (argmax-cosine) centroid; and the access decision is determined by
the cosine score against the threshold alone. -/
theorem claim5_cosine_primary (thr : ℝ) (store : EmbedStore) (e : Vec)
    (log : List Decision) (hne : store ≠ []) : cosineOnlyRule thr store e log := by
  unfold cosineOnlyRule
  have hlen2 : (simsOf (l2normalize e)
      (store.map (fun p => l2normalize (npMean p.2)))).length = store.length := by
    simp [simsOf]
  have hjth : ∀ j, j < store.length →
      (simsOf (l2normalize e) (store.map (fun p => l2normalize (npMean p.2)))).getD j 0 =
        cosineSim (l2normalize e)
          ((store.map (fun p => l2normalize (npMean p.2))).getD j []) := by
    intro j hj
    have hj' : j < (store.map (fun p => l2normalize (npMean p.2))).length := by
      simpa using hj
    rw [simsOf, List.getD_eq_getElem?_getD, List.getElem?_map,
        List.getElem?_eq_getElem hj']
    simp only [Option.map_some', Option.getD_some]
    rw [List.getD_eq_getElem _ [] hj']
  by_cases hgt : (simsOf (l2normalize e) (store.map (fun p => l2normalize (npMean p.2)))).getD
      (npArgmax (simsOf (l2normalize e) (store.map (fun p => l2normalize (npMean p.2))))) 0 > thr
  · have hdec := processFrame_extracted_granted thr (store.map Prod.fst) _
      initialDecision e hgt
    refine ⟨_, verify_single thr store hne (FrameResult.extracted e) log,
            hlen2, hjth, ?_, ?_⟩
    · rw [hdec]
    · rw [hdec]
      exact ⟨fun _ => hgt, fun _ => rfl⟩
  · have hdec := processFrame_extracted_denied thr (store.map Prod.fst) _
      initialDecision e hgt
    have hds : ¬ ("denied" : String) = "granted" := by decide
    refine ⟨_, verify_single thr store hne (FrameResult.extracted e) log,
            hlen2, hjth, ?_, ?_⟩
    · rw [hdec]
    · rw [hdec]
      exact ⟨fun hg => absurd hg hds, fun hg => absurd hg hgt⟩

/-- Witness for the amended C5 at the default threshold, registry
[("a", [[1]])], probe [1]. -/
theorem claim5_cosine_primary_witness :
    (([("a", [[(1 : ℝ)]])] : EmbedStore) ≠ []) ∧
    cosineOnlyRule SIMILARITY_THRESHOLD [("a", [[(1 : ℝ)]])] [(1 : ℝ)] [] :=
  ⟨by simp,
   claim5_cosine_primary SIMILARITY_THRESHOLD [("a", [[(1 : ℝ)]])] [(1 : ℝ)] [] (by simp)⟩


/-- C5 is false on the code: with two enrolled centroids [1] ("a") and
[-1] ("b") and probe [1], the run reports exactly one Euclidean-derived
score — the best candidate "a"'s, 1/(1+0) = 1 — while centroid "b"'s
Euclidean-derived score would be 1/(1+2) = 1/3 and appears nowhere: the
secondary metrics are evaluated only for the argmax-cosine centroid
(face_recognition.py lines 131-135), not for every enrolled centroid. -/
theorem claim5_secondary_only_best_counterexample :
    ∃ dec : Decision,
      verify_face_live (1 / 2) [("a", [[(1 : ℝ)]]), ("b", [[(-1 : ℝ)]])]
          [FrameResult.extracted [(1 : ℝ)]] [] = Except.ok (dec, [dec]) ∧
      dec.scores = some ⟨1, 1, 1⟩ ∧
      1 / (1 + euclideanDist (l2normalize [(1 : ℝ)])
            (l2normalize (npMean [[(-1 : ℝ)]]))) = (1 / 3 : ℝ) ∧
      ((1 : ℝ) ≠ 1 / 3) := by
  have hm2 : npMean [[(-1 : ℝ)]] = [-1] := npMean_single [(-1 : ℝ)]
  have hn1 : l2normalize [(1 : ℝ)] = [1] := l2normalize_of_norm_one _ (by norm_num [dot])
  have hn2 : l2normalize [(-1 : ℝ)] = [-1] := l2normalize_of_norm_one _ (by norm_num [dot])
  have hcos1 : cosineSim [(1 : ℝ)] [(1 : ℝ)] = 1 := by
    unfold cosineSim
    rw [hn1]
    norm_num [dot]
  have hcos2 : cosineSim [(1 : ℝ)] [(-1 : ℝ)] = -1 := by
    unfold cosineSim
    rw [hn1, hn2]
    norm_num [dot]
  have hdbE : (([("a", [[(1 : ℝ)]]), ("b", [[(-1 : ℝ)]])] : EmbedStore)).map
      (fun p => l2normalize (npMean p.2)) = [[1], [-1]] := by
    simp [npMean_single, hn1, hn2]
  have hsims : simsOf (l2normalize [(1 : ℝ)])
      ((([("a", [[(1 : ℝ)]]), ("b", [[(-1 : ℝ)]])] : EmbedStore)).map
        (fun p => l2normalize (npMean p.2))) = [1, -1] := by
    rw [hdbE, hn1]
    simp [simsOf, hcos1, hcos2]
  have hidx : npArgmax [(1 : ℝ), -1] = 0 := npArgmax_pair_of_not_lt 1 (-1) (by norm_num)
  have hgt : (simsOf (l2normalize [(1 : ℝ)])
      ((([("a", [[(1 : ℝ)]]), ("b", [[(-1 : ℝ)]])] : EmbedStore)).map
        (fun p => l2normalize (npMean p.2)))).getD
      (npArgmax (simsOf (l2normalize [(1 : ℝ)])
        ((([("a", [[(1 : ℝ)]]), ("b", [[(-1 : ℝ)]])] : EmbedStore)).map
          (fun p => l2normalize (npMean p.2))))) 0 > (1 / 2 : ℝ) := by
    rw [hsims, hidx]
    norm_num
  have hdec := processFrame_extracted_granted (1 / 2)
    ((([("a", [[(1 : ℝ)]]), ("b", [[(-1 : ℝ)]])] : EmbedStore)).map Prod.fst) _
    initialDecision [(1 : ℝ)] hgt
  have hv := verify_single (1 / 2) ([("a", [[(1 : ℝ)]]), ("b", [[(-1 : ℝ)]])] : EmbedStore)
    (by simp) (FrameResult.extracted [(1 : ℝ)]) []
  rw [List.nil_append] at hv
  have heu0 : euclideanDist [(1 : ℝ)] [(1 : ℝ)] = 0 := by
    simp [euclideanDist]
  have hci0 : cityblock [(1 : ℝ)] [(1 : ℝ)] = 0 := by
    simp [cityblock]
  have heu2 : euclideanDist [(1 : ℝ)] [(-1 : ℝ)] = 2 := by
    unfold euclideanDist
    rw [show (List.zipWith (fun a b => (a - b) ^ 2) [(1 : ℝ)] [(-1 : ℝ)]).sum = 2 ^ 2 by
      norm_num]
    exact Real.sqrt_sq (by norm_num)
  refine ⟨_, hv, ?_, ?_, by norm_num⟩
  · rw [hdec]
    rw [hsims, hidx, hdbE]
    simp only [List.getD_cons_zero]
    rw [hn1, heu0, hci0]
    simp only [Option.some.injEq, Scores.mk.injEq]
    norm_num
  · rw [npMean_single, hn2, hn1, heu2]
    norm_num

/-- C3's "explicit error marker" is false on the code: a run whose frame
yields no usable embedding (run A) and a genuine scored run whose best
cosine similarity is 0 (run B, probe orthogonal to the only centroid) log
decisions that agree on status ("denied"), name ("Unknown") and
confidence (0).  Run B carries a populated scores map while run A's is
empty — the only difference; no field of the record marks the extraction
error explicitly. -/
theorem claim3_no_marker_counterexample :
    ∃ dA dB : Decision,
      verify_face_live (1 / 2) [("a", [[(1 : ℝ), 0]])] [FrameResult.noEmbedding] [] =
        Except.ok (dA, [dA]) ∧
      verify_face_live (1 / 2) [("a", [[(1 : ℝ), 0]])]
          [FrameResult.extracted [(0 : ℝ), 1]] [] =
        Except.ok (dB, [dB]) ∧
      dB.scores ≠ none ∧
      dA.status = dB.status ∧ dA.name = dB.name ∧ dA.confidence = dB.confidence := by
  have hvA := verify_single (1 / 2) ([("a", [[(1 : ℝ), 0]])] : EmbedStore)
    (by simp) FrameResult.noEmbedding []
  rw [List.nil_append] at hvA
  have hvB := verify_single (1 / 2) ([("a", [[(1 : ℝ), 0]])] : EmbedStore)
    (by simp) (FrameResult.extracted [(0 : ℝ), 1]) []
  rw [List.nil_append] at hvB
  have hdecA := processFrame_noEmbedding (1 / 2)
    (([("a", [[(1 : ℝ), 0]])] : EmbedStore).map Prod.fst)
    (([("a", [[(1 : ℝ), 0]])] : EmbedStore).map (fun p => l2normalize (npMean p.2)))
    initialDecision (by norm_num : ¬ (0 : ℝ) > 1 / 2)
  have hn10 : l2normalize [(1 : ℝ), 0] = [1, 0] :=
    l2normalize_of_norm_one _ (by norm_num [dot])
  have hn01 : l2normalize [(0 : ℝ), 1] = [0, 1] :=
    l2normalize_of_norm_one _ (by norm_num [dot])
  have hcos : cosineSim [(0 : ℝ), 1] [(1 : ℝ), 0] = 0 := by
    unfold cosineSim
    rw [hn01, hn10]
    norm_num [dot]
  have hsims : simsOf (l2normalize [(0 : ℝ), 1])
      (([("a", [[(1 : ℝ), 0]])] : EmbedStore).map (fun p => l2normalize (npMean p.2))) =
      [0] := by
    rw [hn01]
    simp [simsOf, npMean_single, hn10, hcos]
  have hngt : ¬ (simsOf (l2normalize [(0 : ℝ), 1])
      (([("a", [[(1 : ℝ), 0]])] : EmbedStore).map (fun p => l2normalize (npMean p.2)))).getD
      (npArgmax (simsOf (l2normalize [(0 : ℝ), 1])
        (([("a", [[(1 : ℝ), 0]])] : EmbedStore).map
          (fun p => l2normalize (npMean p.2))))) 0 > (1 / 2 : ℝ) := by
    rw [hsims, npArgmax_single]
    norm_num
  have hdecB := processFrame_extracted_denied (1 / 2)
    (([("a", [[(1 : ℝ), 0]])] : EmbedStore).map Prod.fst) _
    initialDecision [(0 : ℝ), 1] hngt
  refine ⟨_, _, hvA, hvB, ?_, ?_, ?_, ?_⟩
  · rw [hdecB]
    simp
  · rw [hdecA, hdecB]
  · rw [hdecA, hdecB]
  · rw [hdecA, hdecB, hsims, npArgmax_single]
    rfl

end EagleAccess
